import Mathlib

/-!
Verification development for `support/verify-review-requests.py` (Mesos review
verification script).

The script is a linear pipeline: parse CLI options, build a query, fetch the
pending review requests from the Review Board API, run a selection loop over
them (oldest first, i.e. in reverse of the fetch order, with a cap on how many
to select), and dispatch the selected review ids either to a file or to a
gearman job queue.

Embedding choices:
* The external collaborators (`ReviewBoardHandler.needs_verification`,
  `ReviewBoardHandler.get_review_ids`) are modelled by recording, for each
  fetched review request, the outcome of each call: a returned value, a raised
  `ReviewError`, or any other raised exception (`Outcome`).
* Side effects (posting a comment, the WARNING log line, writing the out file,
  triggering the batch of gearman jobs, a fatal uncaught exception) are
  recorded as an ordered list of `Event`s.
* `json.loads` results for the `--query` and `--params` strings are modelled
  as `Except String X`: `.error e` is the exception raised on malformed JSON.
  The URL encoding of the query and the HTTP transport are external I/O and
  are not modelled; the fetch itself is the `Event.fetchedReviews` marker and
  the fetched list is a parameter of `mainRun`.
* A Python dict is modelled as an association list with unique keys;
  `dict.__setitem__` replaces the value in place when the key is present and
  appends otherwise (`dictInsert`), and `dict.update` folds that over the
  other dict (`dictUpdateAll`).
* The `unique=uuid.uuid4().hex` token of a gearman job is fresh randomness and
  is not part of the model; a job descriptor keeps its task name and its
  parameter dict.
-/

namespace VerifyReviewRequests

/-- `DEFAULT_GEARMAN_PORT = 4730` from the script. -/
def DEFAULT_GEARMAN_PORT : Nat := 4730

/-- `MESOS_REPOSITORY_ID = 122` from the script. -/
def MESOS_REPOSITORY_ID : Nat := 122

/-- Outcome of a call into the external `ReviewBoardHandler`: a normal return,
a raised `ReviewError` (the domain-specific cyclic-dependency error), or any
other raised exception. -/
inductive Outcome (α : Type) where
  | ok : α → Outcome α
  | reviewError : String → Outcome α
  | otherError : String → Outcome α
deriving DecidableEq

/-- A fetched review request together with the behaviour the external handler
exhibits on it: the result of `handler.needs_verification(review_request)` and
of `handler.get_review_ids(review_request)` (whose return value is discarded
by the script; only a raised exception matters). -/
structure ReviewRequest where
  id : Nat
  needsVerification : Outcome Bool
  getReviewIds : Outcome Unit
deriving DecidableEq

/-- One gearman job descriptor, as built in `verify_reviews`: the task name
`"build:%s" % parameters.job` and the JSON-encoded parameter dict. The
per-job `unique` uuid token is fresh randomness and is left out of the model. -/
structure GearmanJob where
  task : String
  data : List (String × String)
deriving DecidableEq

/-- Observable side effects of one run, in order. -/
inductive Event where
  | fetchedReviews : Event
  | postedComment : Nat → String → Event
  | warned : Nat → Event
  | wroteFile : String → String → Event
  | triggeredJobs : List String → List GearmanJob → Event
  | fatalError : String → Event
deriving DecidableEq

/-- State of the selection loop in `main`: the accumulated `review_ids` list,
the `num_reviews` counter, and the side effects emitted so far. -/
structure LoopState where
  reviewIds : List String
  numReviews : Nat
  events : List Event
deriving DecidableEq

def initialState : LoopState := ⟨[], 0, []⟩

/-- The comment body posted on a `ReviewError`:
`"Bad review!\n\nError:\n%s" % (err.args[0])`. -/
def badReviewMessage (err : String) : String :=
  "Bad review!\n\nError:\n" ++ err

/-- One iteration of the selection loop in `main`, for one
`review_request`. Mirrors:

```
if (parameters.reviews == -1 or num_reviews < parameters.reviews):
    try:
        needs_verification = handler.needs_verification(review_request)
        if not needs_verification:
            continue
        # An exception is raised if cyclic dependencies are found
        handler.get_review_ids(review_request)
    except ReviewError as err:
        handler.post_review(review_request, message)
        continue
    except Exception as err:
        needs_verification = False
        ... WARNING ...
    if not needs_verification:
        continue
    review_ids.append(str(review_request["id"]))
    num_reviews += 1
```
-/
def processReview (revCap : Int) (st : LoopState) (r : ReviewRequest) : LoopState :=
  if revCap = -1 ∨ (st.numReviews : Int) < revCap then
    match r.needsVerification with
    | .ok false => st
    | .ok true =>
      match r.getReviewIds with
      | .ok _ =>
        { st with reviewIds := st.reviewIds ++ [toString r.id],
                  numReviews := st.numReviews + 1 }
      | .reviewError e =>
        { st with events := st.events ++ [.postedComment r.id (badReviewMessage e)] }
      | .otherError _ =>
        { st with events := st.events ++ [.warned r.id] }
    | .reviewError e =>
      { st with events := st.events ++ [.postedComment r.id (badReviewMessage e)] }
    | .otherError _ =>
      { st with events := st.events ++ [.warned r.id] }
  else st

/-- The selection loop run over a list already in processing order. -/
def runLoop (revCap : Int) (l : List ReviewRequest) : LoopState :=
  l.foldl (processReview revCap) initialState

/-- The whole selection phase of `main`: the fetched
`review_requests["review_requests"]` list is processed in
`reversed(...)` order. -/
def mainLoop (revCap : Int) (fetched : List ReviewRequest) : LoopState :=
  runLoop revCap fetched.reverse

/-- Spec-side predicate (for the refinement claims): a fetched review is
qualifying when the needs-verification predicate returns `true` and resolving
its dependency chain raises no error. -/
def qualifies (r : ReviewRequest) : Bool :=
  match r.needsVerification, r.getReviewIds with
  | .ok true, .ok _ => true
  | _, _ => false

/-- Spec-side cap combinator: `none` is unbounded, `some k` keeps the first
`k`. -/
def takeOpt (o : Option Nat) (l : List α) : List α :=
  match o with
  | none => l
  | some k => l.take k

/-- How many more reviews the cap still allows from a loop state whose
counter is `n`. -/
def capAllowance (revCap : Int) (n : Nat) : Option Nat :=
  if revCap = -1 then none else some (revCap - n).toNat

/-- Python dict lookup (keys are unique in a dict, so first match). -/
def dictLookup (d : List (String × String)) (k : String) : Option String :=
  match d with
  | [] => none
  | (k₁, v₁) :: rest => if k₁ = k then some v₁ else dictLookup rest k

/-- Python `d[k] = v`: replace the value in place when the key is present,
append otherwise. -/
def dictInsert (d : List (String × String)) (k : String) (v : String) :
    List (String × String) :=
  match d with
  | [] => [(k, v)]
  | (k₁, v₁) :: rest =>
    if k₁ = k then (k, v) :: rest else (k₁, v₁) :: dictInsert rest k v

/-- Python `d.update(u)`. -/
def dictUpdateAll (d u : List (String × String)) : List (String × String) :=
  u.foldl (fun acc kv => dictInsert acc kv.1 kv.2) d

/-- The fixed base `job_params` dict built for one review id:
`{'REVIEW_ID': review_id, "OFFLINE_NODE_WHEN_COMPLETE": "false"}`. -/
def baseJobParams (review_id : String) : List (String × String) :=
  [("REVIEW_ID", review_id), ("OFFLINE_NODE_WHEN_COMPLETE", "false")]

/-- The gearman job list built in `verify_reviews`, given an
already-parsed `--params` dict (or `none` when `--params` was not given). -/
def buildJobs (jobName : String) (params : Option (List (String × String)))
    (review_ids : List String) : List GearmanJob :=
  review_ids.map fun review_id =>
    { task := "build:" ++ jobName,
      data :=
        match params with
        | none => baseJobParams review_id
        | some u => dictUpdateAll (baseJobParams review_id) u }

/-- Python `str.split(sep)` for a one-character separator, over the
character list: every occurrence splits, empty pieces are kept, and the
empty string splits to `[""]`. -/
def pySplit (sep : Char) : List Char → List (List Char)
  | [] => [[]]
  | c :: rest =>
    let r := pySplit sep rest
    if c = sep then [] :: r
    else
      match r with
      | [] => [[c]]
      | h :: t => (c :: h) :: t

/-- Python `str.strip()`: drop leading and trailing whitespace. -/
def pyStrip (l : List Char) : List Char :=
  ((l.dropWhile Char.isWhitespace).reverse.dropWhile Char.isWhitespace).reverse

/-- Normalization of one server address from `parameters.servers`:
`server.strip()`, split on `":"`, and reassemble as `address:port` with the
default gearman port when the split does not have exactly two parts. -/
def normalizeServer (server : String) : String :=
  let s := pyStrip server.data
  let s_split := pySplit ':' s
  let address := String.mk (s_split.headD [])
  let port :=
    if s_split.length = 2 then String.mk (s_split.getD 1 [])
    else toString DEFAULT_GEARMAN_PORT
  address ++ ":" ++ port

/-- `parameters.servers.split(",")`, each entry normalized. -/
def normalizeServers (serversArg : String) : List String :=
  (pySplit ',' serversArg.data).map fun part => normalizeServer (String.mk part)

/-- The output strategy selected by the CLI subcommand: `file` with its
`--out-file` path, or `gearman` with `--servers`, `--job` and the result of
`json.loads(parameters.params)` (`none` when `--params` was not given,
`some (.error e)` when it was given but is malformed JSON). -/
inductive OutputStrategy where
  | file : String → OutputStrategy
  | gearman : String → String →
      Option (Except String (List (String × String))) → OutputStrategy

/-- The per-review job-building loop of `verify_reviews` under the gearman
strategy: `json.loads(parameters.params)` is evaluated once per review id
inside the loop, so with a malformed `--params` the first iteration raises
and with no review ids nothing is ever parsed. -/
def buildJobsE (jobName : String)
    (params : Option (Except String (List (String × String))))
    (review_ids : List String) : Except String (List GearmanJob) :=
  match params, review_ids with
  | some (.error e), _ :: _ => .error e
  | some (.error _), [] => .ok []
  | some (.ok u), _ => .ok (buildJobs jobName (some u) review_ids)
  | none, _ => .ok (buildJobs jobName none review_ids)

/-- The observable effects of `verify_reviews(review_ids, parameters)`.
File plug-in: overwrite the out file with `'\n'.join(review_ids)` and return.
Gearman plug-in: normalize the servers, return with no job when the id list
is empty, otherwise build one job per id and trigger them in one batch call
(`client.trigger_gearman_jobs()`), unless building the jobs raises. -/
def verify_reviews_events (review_ids : List String) (strategy : OutputStrategy) :
    List Event :=
  match strategy with
  | .file out_file =>
    [.wroteFile out_file (String.intercalate "\n" review_ids)]
  | .gearman serversArg jobName params =>
    let servers := normalizeServers serversArg
    if review_ids.length = 0 then []
    else
      match buildJobsE jobName params review_ids with
      | .ok jobs => [.triggeredJobs servers jobs]
      | .error e => [.fatalError e]

/-- The whole run of `main`, as a trace of events:
`json.loads(parameters.query)` happens first (malformed `--query` is an
uncaught exception before anything else), then the single fetch of the
review-request list, then the selection loop, then the dispatch. -/
def mainRun (queryParse : Except String (List (String × String)))
    (revCap : Int) (strategy : OutputStrategy)
    (fetched : List ReviewRequest) : List Event :=
  match queryParse with
  | .error e => [.fatalError e]
  | .ok _ =>
    let st := mainLoop revCap fetched
    .fetchedReviews :: (st.events ++ verify_reviews_events st.reviewIds strategy)

example :
    (mainLoop (-1) [⟨7, .ok true, .ok ()⟩, ⟨8, .ok true, .ok ()⟩]).reviewIds
      = ["8", "7"] := by decide

example :
    (mainLoop 1 [⟨7, .ok true, .ok ()⟩, ⟨8, .ok true, .ok ()⟩]).reviewIds
      = ["8"] := by decide

example :
    (mainLoop (-1) [⟨7, .ok true, .reviewError "cycle"⟩]).events
      = [.postedComment 7 "Bad review!\n\nError:\ncycle"] := by decide

example : normalizeServers "a.com,b.com:9999" = ["a.com:4730", "b.com:9999"] := by
  decide

example : String.intercalate "\n" ["5", "9"] = "5\n9" := by decide

/-! ### Helper lemmas about one loop iteration -/

theorem processReview_not_gate {revCap : Int} {st : LoopState} {r : ReviewRequest}
    (h : ¬(revCap = -1 ∨ (st.numReviews : Int) < revCap)) :
    processReview revCap st r = st := by
  unfold processReview
  rw [if_neg h]

theorem processReview_qualifies {revCap : Int} {st : LoopState} {r : ReviewRequest}
    (hg : revCap = -1 ∨ (st.numReviews : Int) < revCap)
    (h₁ : r.needsVerification = .ok true) (h₂ : r.getReviewIds = .ok ()) :
    processReview revCap st r
      = { st with reviewIds := st.reviewIds ++ [toString r.id],
                  numReviews := st.numReviews + 1 } := by
  unfold processReview
  rw [if_pos hg, h₁, h₂]

theorem processReview_notNeeded {revCap : Int} {st : LoopState} {r : ReviewRequest}
    (hg : revCap = -1 ∨ (st.numReviews : Int) < revCap)
    (h₁ : r.needsVerification = .ok false) :
    processReview revCap st r = st := by
  unfold processReview
  rw [if_pos hg, h₁]

theorem processReview_reviewError_nv {revCap : Int} {st : LoopState}
    {r : ReviewRequest} {e : String}
    (hg : revCap = -1 ∨ (st.numReviews : Int) < revCap)
    (h₁ : r.needsVerification = .reviewError e) :
    processReview revCap st r
      = { st with events := st.events ++ [.postedComment r.id (badReviewMessage e)] } := by
  unfold processReview
  rw [if_pos hg, h₁]

theorem processReview_reviewError_deps {revCap : Int} {st : LoopState}
    {r : ReviewRequest} {e : String}
    (hg : revCap = -1 ∨ (st.numReviews : Int) < revCap)
    (h₁ : r.needsVerification = .ok true) (h₂ : r.getReviewIds = .reviewError e) :
    processReview revCap st r
      = { st with events := st.events ++ [.postedComment r.id (badReviewMessage e)] } := by
  unfold processReview
  rw [if_pos hg, h₁, h₂]

theorem processReview_otherError_nv {revCap : Int} {st : LoopState}
    {r : ReviewRequest} {e : String}
    (hg : revCap = -1 ∨ (st.numReviews : Int) < revCap)
    (h₁ : r.needsVerification = .otherError e) :
    processReview revCap st r = { st with events := st.events ++ [.warned r.id] } := by
  unfold processReview
  rw [if_pos hg, h₁]

theorem processReview_otherError_deps {revCap : Int} {st : LoopState}
    {r : ReviewRequest} {e : String}
    (hg : revCap = -1 ∨ (st.numReviews : Int) < revCap)
    (h₁ : r.needsVerification = .ok true) (h₂ : r.getReviewIds = .otherError e) :
    processReview revCap st r = { st with events := st.events ++ [.warned r.id] } := by
  unfold processReview
  rw [if_pos hg, h₁, h₂]

/-! ### Cap combinator lemmas -/

theorem capAllowance_zero_of_not_gate {revCap : Int} {n : Nat}
    (h : ¬(revCap = -1 ∨ (n : Int) < revCap)) :
    capAllowance revCap n = some 0 := by
  push_neg at h
  unfold capAllowance
  rw [if_neg h.1]
  congr 1
  omega

theorem takeOpt_cons_of_gate {revCap : Int} {n : Nat} {α : Type} (x : α) (l : List α)
    (hg : revCap = -1 ∨ (n : Int) < revCap) :
    takeOpt (capAllowance revCap n) (x :: l)
      = x :: takeOpt (capAllowance revCap (n + 1)) l := by
  unfold capAllowance
  by_cases h1 : revCap = -1
  · rw [if_pos h1, if_pos h1]
    rfl
  · rw [if_neg h1, if_neg h1]
    have hlt : (n : Int) < revCap := hg.resolve_left h1
    show List.take (revCap - (n : Int)).toNat (x :: l)
      = x :: List.take (revCap - ((n + 1 : Nat) : Int)).toNat l
    have h2 : (revCap - (n : Int)).toNat = (revCap - ((n + 1 : Nat) : Int)).toNat + 1 := by
      push_cast
      omega
    rw [h2, List.take_succ_cons]

/-! ### Master characterization of the selection loop

The fold of `processReview` over any processing-order list, from any state,
appends exactly the qualifying ids, truncated at what the cap still allows,
and advances the counter by that many. -/

theorem foldl_processReview_char (revCap : Int) :
    ∀ (l : List ReviewRequest) (st : LoopState),
      (List.foldl (processReview revCap) st l).reviewIds
          = st.reviewIds
            ++ takeOpt (capAllowance revCap st.numReviews)
                ((l.filter qualifies).map fun r => toString r.id)
        ∧ (List.foldl (processReview revCap) st l).numReviews
          = st.numReviews
            + (takeOpt (capAllowance revCap st.numReviews)
                ((l.filter qualifies).map fun r => toString r.id)).length := by
  intro l
  induction l with
  | nil =>
    intro st
    unfold takeOpt
    cases capAllowance revCap st.numReviews <;> simp
  | cons r l ih =>
    intro st
    by_cases hg : revCap = -1 ∨ (st.numReviews : Int) < revCap
    · match h₁ : r.needsVerification, h₂ : r.getReviewIds with
      | .ok true, .ok () =>
        have hq : qualifies r = true := by unfold qualifies; rw [h₁, h₂]
        have hstep := processReview_qualifies hg h₁ h₂
        obtain ⟨ih1, ih2⟩ := ih { st with reviewIds := st.reviewIds ++ [toString r.id],
                                          numReviews := st.numReviews + 1 }
        simp only [List.foldl_cons, hstep]
        rw [ih1, ih2, List.filter_cons_of_pos hq, List.map_cons,
          takeOpt_cons_of_gate (toString r.id) _ hg]
        constructor
        · simp
        · simp only [List.length_cons]
          omega
      | .ok true, .reviewError e =>
        have hq : ¬ qualifies r = true := by unfold qualifies; rw [h₁, h₂]; simp
        have hstep := processReview_reviewError_deps hg h₁ h₂
        obtain ⟨ih1, ih2⟩ :=
          ih { st with events := st.events ++ [.postedComment r.id (badReviewMessage e)] }
        simp only [List.foldl_cons, hstep]
        rw [ih1, ih2, List.filter_cons_of_neg hq]
        exact ⟨rfl, rfl⟩
      | .ok true, .otherError e =>
        have hq : ¬ qualifies r = true := by unfold qualifies; rw [h₁, h₂]; simp
        have hstep := processReview_otherError_deps hg h₁ h₂
        obtain ⟨ih1, ih2⟩ := ih { st with events := st.events ++ [.warned r.id] }
        simp only [List.foldl_cons, hstep]
        rw [ih1, ih2, List.filter_cons_of_neg hq]
        exact ⟨rfl, rfl⟩
      | .ok false, _ =>
        have hq : ¬ qualifies r = true := by unfold qualifies; rw [h₁]; simp
        have hstep := processReview_notNeeded hg h₁
        obtain ⟨ih1, ih2⟩ := ih st
        simp only [List.foldl_cons, hstep]
        rw [ih1, ih2, List.filter_cons_of_neg hq]
        exact ⟨rfl, rfl⟩
      | .reviewError e, _ =>
        have hq : ¬ qualifies r = true := by unfold qualifies; rw [h₁]; simp
        have hstep := processReview_reviewError_nv hg h₁
        obtain ⟨ih1, ih2⟩ :=
          ih { st with events := st.events ++ [.postedComment r.id (badReviewMessage e)] }
        simp only [List.foldl_cons, hstep]
        rw [ih1, ih2, List.filter_cons_of_neg hq]
        exact ⟨rfl, rfl⟩
      | .otherError e, _ =>
        have hq : ¬ qualifies r = true := by unfold qualifies; rw [h₁]; simp
        have hstep := processReview_otherError_nv hg h₁
        obtain ⟨ih1, ih2⟩ := ih { st with events := st.events ++ [.warned r.id] }
        simp only [List.foldl_cons, hstep]
        rw [ih1, ih2, List.filter_cons_of_neg hq]
        exact ⟨rfl, rfl⟩
    · have hstep := processReview_not_gate (r := r) hg
      obtain ⟨ih1, ih2⟩ := ih st
      simp only [List.foldl_cons, hstep]
      rw [ih1, ih2, capAllowance_zero_of_not_gate hg]
      simp [takeOpt]

/-! ### Dict lemmas -/

theorem dictLookup_dictInsert (d : List (String × String)) (k v k₁ : String) :
    dictLookup (dictInsert d k v) k₁
      = if k = k₁ then some v else dictLookup d k₁ := by
  induction d with
  | nil => simp [dictInsert, dictLookup]
  | cons p rest ih =>
    obtain ⟨k₂, v₂⟩ := p
    unfold dictInsert
    by_cases h : k₂ = k
    · rw [if_pos h]
      subst h
      unfold dictLookup
      by_cases h2 : k₂ = k₁ <;> simp [h2]
    · rw [if_neg h]
      unfold dictLookup
      by_cases h2 : k₂ = k₁
      · have hk : ¬ k = k₁ := fun hkk => h (hkk ▸ h2)
        rw [if_pos h2, if_pos h2, if_neg hk]
      · rw [if_neg h2, if_neg h2, ih]

theorem dictLookup_eq_none (u : List (String × String)) (k : String)
    (h : ∀ p ∈ u, p.1 ≠ k) : dictLookup u k = none := by
  induction u with
  | nil => rfl
  | cons p rest ih =>
    obtain ⟨k₁, v₁⟩ := p
    unfold dictLookup
    rw [if_neg (h (k₁, v₁) (List.mem_cons_self _ _))]
    exact ih fun q hq => h q (List.mem_cons_of_mem _ hq)

/-- `dict.update` through `dictLookup`: values from `u` win on key collision,
keys absent from `u` keep their value from `d`. -/
theorem dictLookup_dictUpdateAll :
    ∀ (u : List (String × String)), (u.map Prod.fst).Nodup →
      ∀ (d : List (String × String)) (k : String),
        dictLookup (dictUpdateAll d u) k
          = match dictLookup u k with
            | some v => some v
            | none => dictLookup d k := by
  intro u
  induction u with
  | nil =>
    intro _ d k
    simp [dictUpdateAll, dictLookup]
  | cons p u ih =>
    intro hnd d k
    obtain ⟨k₁, v₁⟩ := p
    rw [List.map_cons, List.nodup_cons] at hnd
    have step : dictUpdateAll d ((k₁, v₁) :: u) = dictUpdateAll (dictInsert d k₁ v₁) u := rfl
    rw [step, ih hnd.2]
    by_cases h : k₁ = k
    · subst h
      have hu : dictLookup u k₁ = none := by
        refine dictLookup_eq_none u k₁ fun q hq hk => ?_
        have hmem : q.1 ∈ List.map Prod.fst u := List.mem_map_of_mem Prod.fst hq
        rw [hk] at hmem
        exact hnd.1 hmem
      rw [hu]
      show dictLookup (dictInsert d k₁ v₁) k₁
        = match dictLookup ((k₁, v₁) :: u) k₁ with
          | some v => some v
          | none => dictLookup d k₁
      rw [dictLookup_dictInsert]
      unfold dictLookup
      rw [if_pos rfl, if_pos rfl]
    · have hcons : dictLookup ((k₁, v₁) :: u) k = dictLookup u k := by
        show (if k₁ = k then some v₁ else dictLookup u k) = dictLookup u k
        rw [if_neg h]
      rw [hcons]
      cases hu : dictLookup u k with
      | some v => rfl
      | none =>
        rw [dictLookup_dictInsert, if_neg h]

/-! ### Corollaries of the master characterization -/

/-- The dispatched id list of a whole selection phase: the qualifying
reviews of the reversed fetch order, truncated at what the cap allows. -/
theorem mainLoop_reviewIds_eq (revCap : Int) (fetched : List ReviewRequest) :
    (mainLoop revCap fetched).reviewIds
      = takeOpt (if revCap = -1 then none else some revCap.toNat)
          ((fetched.reverse.filter qualifies).map fun r => toString r.id) := by
  have h := (foldl_processReview_char revCap fetched.reverse initialState).1
  unfold mainLoop runLoop
  rw [h]
  show [] ++ _ = _
  rw [List.nil_append]
  congr 1
  unfold capAllowance
  by_cases hc : revCap = -1
  · rw [if_pos hc, if_pos hc]
  · rw [if_neg hc, if_neg hc]
    congr 1
    show (revCap - ((0 : Nat) : Int)).toNat = revCap.toNat
    norm_num

theorem takeOpt_subset (o : Option Nat) {α : Type} (l : List α) : takeOpt o l ⊆ l := by
  cases o with
  | none => exact fun x hx => hx
  | some k => exact List.take_subset k l

/-! ### Claim theorems -/

/-- C1: for every fetched list of review requests and every cap, the
dispatched review-id list of one run is exactly the fetched reviews for
which the needs-verification predicate returns `true` and resolving the
dependency chain raises no error, in reverse of the fetch order, truncated
at the configured cap (`-1` meaning no truncation). -/
theorem claim_c1_dispatched_ids (revCap : Int) (fetched : List ReviewRequest) :
    (mainLoop revCap fetched).reviewIds
      = takeOpt (if revCap = -1 then none else some revCap.toNat)
          ((fetched.reverse.filter qualifies).map fun r => toString r.id) :=
  mainLoop_reviewIds_eq revCap fetched

/-- C3: a cap of `-1` selects every qualifying review, a cap of `0` selects
none, and a cap of `k > 0` selects at most `k` reviews (the first `k`
qualifying ones, so selection stops once the cap is reached). -/
theorem claim_c3_cap_semantics (fetched : List ReviewRequest) (k : Int) :
    (mainLoop (-1) fetched).reviewIds
        = ((fetched.reverse.filter qualifies).map fun r => toString r.id)
      ∧ (mainLoop 0 fetched).reviewIds = []
      ∧ (0 < k →
          (mainLoop k fetched).reviewIds
              = ((fetched.reverse.filter qualifies).map fun r => toString r.id).take k.toNat
            ∧ (mainLoop k fetched).reviewIds.length ≤ k.toNat) := by
  refine ⟨?_, ?_, ?_⟩
  · rw [mainLoop_reviewIds_eq]
    rw [if_pos rfl]
    rfl
  · rw [mainLoop_reviewIds_eq]
    rw [if_neg (by norm_num)]
    rfl
  · intro hk
    have hne : k ≠ -1 := by omega
    have heq : (mainLoop k fetched).reviewIds
        = ((fetched.reverse.filter qualifies).map fun r => toString r.id).take k.toNat := by
      rw [mainLoop_reviewIds_eq, if_neg hne]
      rfl
    refine ⟨heq, ?_⟩
    rw [heq]
    exact List.length_take_le k.toNat _

/-- C3 witness: with a cap of `1` and two qualifying fetched reviews, at
most one review is selected. -/
theorem claim_c3_cap_semantics_witness :
    0 < (1 : Int)
      ∧ (mainLoop 1 [⟨7, .ok true, .ok ()⟩, ⟨8, .ok true, .ok ()⟩]).reviewIds
          = ((([⟨7, .ok true, .ok ()⟩, ⟨8, .ok true, .ok ()⟩]
              : List ReviewRequest).reverse.filter qualifies).map
              fun r => toString r.id).take (1 : Int).toNat
      ∧ (mainLoop 1 [⟨7, .ok true, .ok ()⟩, ⟨8, .ok true, .ok ()⟩]).reviewIds.length
          ≤ (1 : Int).toNat := by
  have h := (claim_c3_cap_semantics
    [⟨7, .ok true, .ok ()⟩, ⟨8, .ok true, .ok ()⟩] 1).2.2 (by decide)
  exact ⟨by decide, h.1, h.2⟩

/-- C10: every negative cap other than `-1` (for example `--reviews -2`)
selects no review at all and, under the queue strategy, dispatches no job:
only the exact value `-1` means unbounded. -/
theorem claim_c10_negative_cap (revCap : Int) (fetched : List ReviewRequest)
    (h₁ : revCap < 0) (h₂ : revCap ≠ -1) :
    (mainLoop revCap fetched).reviewIds = []
      ∧ ∀ (serversArg jobName : String)
          (params : Option (Except String (List (String × String)))),
          verify_reviews_events (mainLoop revCap fetched).reviewIds
              (.gearman serversArg jobName params)
            = [] := by
  have hids : (mainLoop revCap fetched).reviewIds = [] := by
    rw [mainLoop_reviewIds_eq, if_neg h₂]
    have : revCap.toNat = 0 := by omega
    rw [this]
    rfl
  refine ⟨hids, ?_⟩
  intro serversArg jobName params
  rw [hids]
  rfl

/-- C10 witness: a cap of `-2` over one qualifying fetched review selects
nothing and triggers no gearman job. -/
theorem claim_c10_negative_cap_witness :
    (mainLoop (-2) [⟨7, .ok true, .ok ()⟩]).reviewIds = []
      ∧ verify_reviews_events (mainLoop (-2) [⟨7, .ok true, .ok ()⟩]).reviewIds
          (.gearman "127.0.0.1" "mesos-reviewbot" none)
        = [] := by
  have h := claim_c10_negative_cap (-2) [⟨7, .ok true, .ok ()⟩]
    (by decide) (by decide)
  exact ⟨h.1, h.2 "127.0.0.1" "mesos-reviewbot" none⟩

/-- C4: a review reached under the cap whose dependency-chain resolution
raises the cyclic-dependency `ReviewError` gets exactly one explanatory
comment posted back, is not appended to the dispatched id list, and leaves
the cap counter unchanged; and a review id none of whose fetched occurrences
qualifies never appears in the dispatched id list of the whole run. -/
theorem claim_c4_cycle_error (revCap : Int) (st : LoopState) (r : ReviewRequest)
    (e : String)
    (hg : revCap = -1 ∨ (st.numReviews : Int) < revCap)
    (h₁ : r.needsVerification = .ok true)
    (h₂ : r.getReviewIds = .reviewError e) :
    processReview revCap st r
        = { st with events := st.events ++ [.postedComment r.id (badReviewMessage e)] }
      ∧ ∀ fetched : List ReviewRequest,
          (∀ rq ∈ fetched, toString rq.id = toString r.id → qualifies rq = false) →
          toString r.id ∉ (mainLoop revCap fetched).reviewIds := by
  refine ⟨processReview_reviewError_deps hg h₁ h₂, ?_⟩
  intro fetched hall hmem
  rw [mainLoop_reviewIds_eq] at hmem
  have hmem2 := takeOpt_subset _ _ hmem
  obtain ⟨rq, hrq, hid⟩ := List.mem_map.mp hmem2
  have hfil := List.mem_filter.mp hrq
  have hq : qualifies rq = false := hall rq (List.mem_reverse.mp hfil.1) hid
  rw [hq] at hfil
  exact absurd hfil.2 (by simp)

/-- C4 witness: a review whose dependency resolution raises
`ReviewError "cycle"` triggers exactly one posted comment, is not selected,
does not advance the counter, and its id is absent from the run's
dispatched list. -/
theorem claim_c4_cycle_error_witness :
    processReview (-1) initialState ⟨3, .ok true, .reviewError "cycle"⟩
        = { initialState with
            events := initialState.events ++ [.postedComment 3 (badReviewMessage "cycle")] }
      ∧ toString (3 : Nat)
          ∉ (mainLoop (-1) [⟨3, .ok true, .reviewError "cycle"⟩]).reviewIds := by
  have h := claim_c4_cycle_error (-1) initialState ⟨3, .ok true, .reviewError "cycle"⟩
    "cycle" (Or.inl rfl) rfl rfl
  exact ⟨h.1, h.2 [⟨3, .ok true, .reviewError "cycle"⟩] (by decide)⟩

/-- C5: a review reached under the cap whose verification-status or
dependency resolution raises any error other than `ReviewError` only gets a
warning logged, is treated as not needing verification (not selected, cap
counter unchanged), and the loop goes on over the remaining reviews and
selects exactly what it would select without that review. -/
theorem claim_c5_other_error (revCap : Int) (st : LoopState) (r : ReviewRequest)
    (e : String)
    (hg : revCap = -1 ∨ (st.numReviews : Int) < revCap)
    (herr : r.needsVerification = .otherError e
          ∨ (r.needsVerification = .ok true ∧ r.getReviewIds = .otherError e)) :
    processReview revCap st r = { st with events := st.events ++ [.warned r.id] }
      ∧ ∀ l : List ReviewRequest,
          (List.foldl (processReview revCap) st (r :: l)).reviewIds
            = (List.foldl (processReview revCap) st l).reviewIds := by
  have hstep : processReview revCap st r
      = { st with events := st.events ++ [.warned r.id] } := by
    rcases herr with h₁ | ⟨h₁, h₂⟩
    · exact processReview_otherError_nv hg h₁
    · exact processReview_otherError_deps hg h₁ h₂
  refine ⟨hstep, ?_⟩
  intro l
  simp only [List.foldl_cons, hstep]
  rw [(foldl_processReview_char revCap l
        { st with events := st.events ++ [.warned r.id] }).1,
      (foldl_processReview_char revCap l st).1]

/-- C5 witness: a review on which `needs_verification` raises a generic
exception only produces a warning, and the run continues over the remaining
review exactly as if the failing review were absent. -/
theorem claim_c5_other_error_witness :
    processReview (-1) initialState ⟨4, .otherError "boom", .ok ()⟩
        = { initialState with events := initialState.events ++ [.warned 4] }
      ∧ (List.foldl (processReview (-1)) initialState
            [⟨4, .otherError "boom", .ok ()⟩, ⟨9, .ok true, .ok ()⟩]).reviewIds
          = (List.foldl (processReview (-1)) initialState
              [⟨9, .ok true, .ok ()⟩]).reviewIds := by
  have h := claim_c5_other_error (-1) initialState ⟨4, .otherError "boom", .ok ()⟩
    "boom" (Or.inl rfl) (Or.inl rfl)
  exact ⟨h.1, h.2 [⟨9, .ok true, .ok ()⟩]⟩

/-- C6: under the queue strategy one job is built per selected review id, in
order; the job for review id `rid` has task name `"build:" ++ jobName` and
its parameter dict is the fixed base (`REVIEW_ID` mapped to `rid`,
`OFFLINE_NODE_WHEN_COMPLETE` mapped to `"false"`) overlaid with the
caller-supplied `--params` dict, caller values winning on key collision:
looking up any key gives the caller value when the key is in `--params` and
the base value otherwise. -/
theorem claim_c6_job_params (jobName : String) (u : List (String × String))
    (pre post : List String) (rid k : String)
    (hnd : (u.map Prod.fst).Nodup) :
    buildJobs jobName (some u) (pre ++ rid :: post)
        = buildJobs jobName (some u) pre
          ++ ({ task := "build:" ++ jobName,
                data := dictUpdateAll (baseJobParams rid) u } : GearmanJob)
             :: buildJobs jobName (some u) post
      ∧ dictLookup (dictUpdateAll (baseJobParams rid) u) k
        = match dictLookup u k with
          | some v => some v
          | none => dictLookup (baseJobParams rid) k := by
  constructor
  · unfold buildJobs
    rw [List.map_append, List.map_cons]
  · exact dictLookup_dictUpdateAll u hnd (baseJobParams rid) k

/-- C6 witness: a `--params` dict that overrides `REVIEW_ID` and adds a new
key, applied to the single selected review id `"5"`. -/
theorem claim_c6_job_params_witness :
    buildJobs "mesos-reviewbot" (some [("REVIEW_ID", "42"), ("EXTRA", "1")])
        ([] ++ "5" :: [])
        = buildJobs "mesos-reviewbot" (some [("REVIEW_ID", "42"), ("EXTRA", "1")]) []
          ++ ({ task := "build:" ++ "mesos-reviewbot",
                data := dictUpdateAll (baseJobParams "5")
                  [("REVIEW_ID", "42"), ("EXTRA", "1")] } : GearmanJob)
             :: buildJobs "mesos-reviewbot" (some [("REVIEW_ID", "42"), ("EXTRA", "1")]) []
      ∧ dictLookup (dictUpdateAll (baseJobParams "5")
            [("REVIEW_ID", "42"), ("EXTRA", "1")]) "REVIEW_ID"
        = match dictLookup [("REVIEW_ID", "42"), ("EXTRA", "1")] "REVIEW_ID" with
          | some v => some v
          | none => dictLookup (baseJobParams "5") "REVIEW_ID" :=
  claim_c6_job_params "mesos-reviewbot" [("REVIEW_ID", "42"), ("EXTRA", "1")]
    [] [] "5" "REVIEW_ID" (by decide)

/-- C8: under the file strategy the out file is overwritten with exactly the
newline-joined selected ids: `["5", "9"]` yields file contents `"5\n9"` and
`[]` yields an empty file. -/
theorem claim_c8_file_contents (path : String) :
    verify_reviews_events ["5", "9"] (.file path) = [.wroteFile path "5\n9"]
      ∧ verify_reviews_events [] (.file path) = [.wroteFile path ""] :=
  ⟨rfl, rfl⟩

/-- C9: under the queue strategy an empty selected id list makes
`verify_reviews` return before building any job descriptor or calling the
gearman client: no job submission happens. -/
theorem claim_c9_empty_queue_dispatch (serversArg jobName : String)
    (params : Option (Except String (List (String × String)))) :
    verify_reviews_events [] (.gearman serversArg jobName params) = [] :=
  rfl

theorem pySplit_ne_nil (sep : Char) (l : List Char) : pySplit sep l ≠ [] := by
  induction l with
  | nil => simp [pySplit]
  | cons c rest ih =>
    unfold pySplit
    by_cases h : c = sep
    · rw [if_pos h]
      simp
    · rw [if_neg h]
      cases hr : pySplit sep rest with
      | nil => simp
      | cons a t => simp

/-- A one-piece split means the separator does not occur and the piece is
the whole input. -/
theorem pySplit_singleton (sep : Char) :
    ∀ (l m : List Char), pySplit sep l = [m] → m = l := by
  intro l
  induction l with
  | nil =>
    intro m h
    simp [pySplit] at h
    rw [h]
  | cons c rest ih =>
    intro m h
    unfold pySplit at h
    by_cases hc : c = sep
    · rw [if_pos hc] at h
      have : pySplit sep rest = [] := (List.cons.injEq _ _ _ _ ▸ h).2
      exact absurd this (pySplit_ne_nil sep rest)
    · rw [if_neg hc] at h
      cases hr : pySplit sep rest with
      | nil => exact absurd hr (pySplit_ne_nil sep rest)
      | cons a t =>
        rw [hr] at h
        have h1 : c :: a = m := (List.cons.injEq _ _ _ _ ▸ h).1
        have h2 : t = [] := (List.cons.injEq _ _ _ _ ▸ h).2
        have ha : a = rest := by
          apply ih
          rw [hr, h2]
        rw [← h1, ha]

/-- C7: every server address is normalized to `host:port`; when the stripped
address contains no colon (its split has a single piece) the whole address
becomes the host and the default port 4730 is appended; in particular the
servers string `"a.com,b.com:9999"` normalizes to
`["a.com:4730", "b.com:9999"]`. -/
theorem claim_c7_server_normalization :
    (∀ server : String,
        (pySplit ':' (pyStrip server.data)).length = 1 →
        normalizeServer server
          = String.mk (pyStrip server.data) ++ ":" ++ toString DEFAULT_GEARMAN_PORT)
      ∧ normalizeServers "a.com,b.com:9999" = ["a.com:4730", "b.com:9999"] := by
  constructor
  · intro server h
    obtain ⟨m, hm⟩ : ∃ m, pySplit ':' (pyStrip server.data) = [m] := by
      cases hps : pySplit ':' (pyStrip server.data) with
      | nil => exact absurd hps (pySplit_ne_nil _ _)
      | cons a t =>
        rw [hps] at h
        have ht : t = [] := by
          rw [List.length_cons] at h
          exact List.eq_nil_of_length_eq_zero (by omega)
        exact ⟨a, by rw [ht]⟩
    have hm2 : m = pyStrip server.data := pySplit_singleton ':' _ m hm
    show String.mk ((pySplit ':' (pyStrip server.data)).headD []) ++ ":"
          ++ (if (pySplit ':' (pyStrip server.data)).length = 2
              then String.mk ((pySplit ':' (pyStrip server.data)).getD 1 [])
              else toString DEFAULT_GEARMAN_PORT)
        = String.mk (pyStrip server.data) ++ ":" ++ toString DEFAULT_GEARMAN_PORT
    rw [hm, hm2]
    simp
  · decide

/-- C7 witness: `"a.com"` strips to itself, splits to one piece, and is
normalized with the default port. -/
theorem claim_c7_server_normalization_witness :
    (pySplit ':' (pyStrip "a.com".data)).length = 1
      ∧ normalizeServer "a.com"
          = String.mk (pyStrip "a.com".data) ++ ":" ++ toString DEFAULT_GEARMAN_PORT :=
  ⟨by decide, claim_c7_server_normalization.1 "a.com" (by decide)⟩

/-- C2 counterexample: with a malformed `--params` string under the queue
strategy the failure is not an unrecovered startup failure. With one
qualifying fetched review the review list is fetched (the trace starts with
the fetch) before the uncaught parse error; with no qualifying review the
malformed `--params` is never parsed and the run completes with no failure
at all. -/
theorem claim_c2_counterexample :
    mainRun (.ok [("status", "pending")]) (-1)
        (.gearman "127.0.0.1" "mesos-reviewbot"
          (some (.error "No JSON object could be decoded")))
        [⟨7, .ok true, .ok ()⟩]
      = [.fetchedReviews, .fatalError "No JSON object could be decoded"]
      ∧ mainRun (.ok [("status", "pending")]) (-1)
          (.gearman "127.0.0.1" "mesos-reviewbot"
            (some (.error "No JSON object could be decoded")))
          []
        = [.fetchedReviews] := by
  constructor
  · rfl
  · rfl

/-- C2 amended: a malformed `--query` string is an unrecovered startup
failure (no review fetched, no comment posted, no id dispatched). A
malformed `--params` string, however, fails only at queue-dispatch time:
when at least one id was selected, the run fails after fetching the reviews
and emitting the loop's comments and warnings but before any job
submission; when no id was selected the malformed `--params` is never
parsed and the run completes without error. -/
theorem claim_c2_amended_json_failures :
    (∀ (e : String) (revCap : Int) (strategy : OutputStrategy)
        (fetched : List ReviewRequest),
        mainRun (.error e) revCap strategy fetched = [.fatalError e])
      ∧ (∀ (q : List (String × String)) (revCap : Int)
          (serversArg jobName e : String) (fetched : List ReviewRequest),
          (mainLoop revCap fetched).reviewIds ≠ [] →
          mainRun (.ok q) revCap (.gearman serversArg jobName (some (.error e))) fetched
            = .fetchedReviews :: ((mainLoop revCap fetched).events ++ [.fatalError e]))
      ∧ (∀ (q : List (String × String)) (revCap : Int)
          (serversArg jobName e : String) (fetched : List ReviewRequest),
          (mainLoop revCap fetched).reviewIds = [] →
          mainRun (.ok q) revCap (.gearman serversArg jobName (some (.error e))) fetched
            = .fetchedReviews :: (mainLoop revCap fetched).events) := by
  refine ⟨fun e revCap strategy fetched => rfl, ?_, ?_⟩
  · intro q revCap serversArg jobName e fetched hne
    show Event.fetchedReviews
          :: ((mainLoop revCap fetched).events
              ++ verify_reviews_events (mainLoop revCap fetched).reviewIds
                  (.gearman serversArg jobName (some (.error e))))
        = _
    have hv : verify_reviews_events (mainLoop revCap fetched).reviewIds
        (.gearman serversArg jobName (some (.error e))) = [.fatalError e] := by
      cases hids : (mainLoop revCap fetched).reviewIds with
      | nil => exact absurd hids hne
      | cons x xs =>
        show (if (x :: xs).length = 0 then []
              else match buildJobsE jobName (some (.error e)) (x :: xs) with
                   | .ok jobs =>
                     [.triggeredJobs (normalizeServers serversArg) jobs]
                   | .error e₁ => [.fatalError e₁])
            = [Event.fatalError e]
        rw [if_neg (by simp)]
        rfl
    rw [hv]
  · intro q revCap serversArg jobName e fetched hemp
    show Event.fetchedReviews
          :: ((mainLoop revCap fetched).events
              ++ verify_reviews_events (mainLoop revCap fetched).reviewIds
                  (.gearman serversArg jobName (some (.error e))))
        = _
    rw [hemp]
    show Event.fetchedReviews :: ((mainLoop revCap fetched).events ++ []) = _
    rw [List.append_nil]

/-- C2 amended witness: concrete runs for each arm: a malformed `--query`
fails immediately; a malformed `--params` with one qualifying review fails
after the fetch; a malformed `--params` with no fetched review completes. -/
theorem claim_c2_amended_json_failures_witness :
    mainRun (.error "bad query") (-1) (.file "out.txt") [] = [.fatalError "bad query"]
      ∧ (mainLoop (-1) [(⟨7, .ok true, .ok ()⟩ : ReviewRequest)]).reviewIds ≠ []
      ∧ mainRun (.ok []) (-1) (.gearman "a.com" "job" (some (.error "bad params")))
          [⟨7, .ok true, .ok ()⟩]
        = .fetchedReviews
            :: ((mainLoop (-1) [(⟨7, .ok true, .ok ()⟩ : ReviewRequest)]).events
                ++ [.fatalError "bad params"])
      ∧ (mainLoop (-1) ([] : List ReviewRequest)).reviewIds = []
      ∧ mainRun (.ok []) (-1) (.gearman "a.com" "job" (some (.error "bad params"))) []
        = .fetchedReviews :: (mainLoop (-1) ([] : List ReviewRequest)).events := by
  refine ⟨claim_c2_amended_json_failures.1 "bad query" (-1) (.file "out.txt") [],
    by decide, ?_, by decide, ?_⟩
  · exact claim_c2_amended_json_failures.2.1 [] (-1) "a.com" "job" "bad params"
      [⟨7, .ok true, .ok ()⟩] (by decide)
  · exact claim_c2_amended_json_failures.2.2 [] (-1) "a.com" "job" "bad params"
      [] (by decide)

end VerifyReviewRequests
